import Mathlib

/-!
The configmirror-operator: reverse routing and replication.

A shallow embedding of `internal/controller/configmirror_controller.go` and of the
helpers of `pkg/utils/utils.go` it uses.

* Go `map[string]string` values are association lists read through `mapGet`.
* Pointer receivers that the code mutates are passed in and returned explicitly.
* Calls that leave the process (the cluster client, the audit store) are fields of `Env`;
  every call made by the replication loop is appended to a trace of `Call`s together with
  the error it returned.
* The error of the library function `metav1.LabelSelectorAsSelector` is a parameter
  (`Env.SelectorError`); a Go panic is a result of its own (`none`, `Outcome.panicked`).
* Logging and the per-call timeouts are not modelled: a timeout reaches the code as the
  error value of the call it bounds.
-/

namespace Controller

/-! ## Go maps -/

/-- A Go `map[string]string`. A `nil` map and an empty map read alike; where the difference
matters (writes), the field is an `Option GoMap` and `none` is the `nil` map. -/
abbrev GoMap := List (String × String)

/-- The read `m[k]` in its two-result form: `some v` when the key is present. -/
def mapGet : GoMap → String → Option String
  | [], _ => none
  | (k', v') :: m, k => if k' = k then some v' else mapGet m k

/-- The write `m[k] = v` on a non-nil map. -/
def mapSet : GoMap → String → String → GoMap
  | [], k, v => [(k, v)]
  | (k', v') :: m, k, v => if k' = k then (k, v) :: m else (k', v') :: mapSet m k v

/-- The builtin `delete(m, k)`. -/
def mapDelete (m : GoMap) (k : String) : GoMap :=
  m.filter (fun p => p.1 != k)

/-- Reading a possibly-nil map: a `nil` map has no keys. -/
def annGet (a : Option GoMap) (k : String) : Option String :=
  match a with
  | none => none
  | some m => mapGet m k

/-! ## pkg/utils -/

namespace utils

def Api : String := "bennsimon.github.io"
def MirrorKey : String := "mirror"
def SourceNamespace : String := "sourceNamespace"
def ControllerName : String := "configmirror-controller"
def ManagedBy : String := "managed-by"

/-- The function `GetAnnotationKey`: `fmt.Sprintf("%s/%s", Api, key)`. -/
def GetAnnotationKey (key : String) : String :=
  Api ++ "/" ++ key

/-- The function `GetFieldOwner`: `fmt.Sprintf("%s/%s", Api, ControllerName)`. -/
def GetFieldOwner : String :=
  Api ++ "/" ++ ControllerName

end utils

/-- The annotation key removed from every replica. -/
def lastAppliedKey : String := "kubectl.kubernetes.io/last-applied-configuration"

/-! ## Objects -/

/-- The fields of a `v1.ConfigMap` that the controller reads or writes. `Annotations` and
`ManagedFields` keep the nil/non-nil distinction, the other fields are only copied. -/
structure ConfigMap where
  Name : String
  Namespace : String
  UID : String
  ResourceVersion : String
  Labels : GoMap
  Annotations : Option GoMap
  ManagedFields : Option (List String)
  Data : GoMap
  deriving DecidableEq, Repr

/-- Modelled from the spec: the selector type of `api/v1alpha1`, whose declaration is not
among the sources; section 6 gives `selector.matchLabels: map<string,string>`. -/
structure ConfigMirrorLabelSelector where
  MatchLabels : GoMap
  deriving DecidableEq, Repr

/-- Modelled from the spec: the `ConfigMirrorSpec` type of `api/v1alpha1`, whose declaration
is not among the sources; section 6 gives `sourceNamespace: string` and
`targetNamespaces: string[]`. The code dereferences both fields, they are taken as set. -/
structure ConfigMirrorSpec where
  SourceNamespace : String
  TargetNamespaces : List String
  Selector : ConfigMirrorLabelSelector
  deriving DecidableEq, Repr

/-- Modelled from the spec: the `ConfigMirror` type of `api/v1alpha1` (identity and spec). -/
structure ConfigMirror where
  Name : String
  Namespace : String
  Spec : ConfigMirrorSpec
  deriving DecidableEq, Repr

/-- A `reconcile.Request`: the namespaced name of a mirror definition. -/
structure Request where
  Namespace : String
  Name : String
  deriving DecidableEq, Repr

/-- Modelled from the spec: `labels.Selector.Matches` for a selector that
`metav1.LabelSelectorAsSelector` built from `matchLabels` (library code, not among the
sources). Section 4.1: a conjunction over exact label-value equality, each key has to be
present with the same value. -/
def selectorMatches (matchLabels : GoMap) (labels : GoMap) : Bool :=
  matchLabels.all (fun p =>
    match mapGet labels p.1 with
    | none => false
    | some v => v == p.2)

/-! ## The environment -/

/-- The error value of the client `Get` in `EnqueueRequest`, by the cases the code
distinguishes: `nil`, an error for which `errors.IsNotFound` holds, any other error. -/
inductive GetResult where
  | found
  | notFound
  | failed (err : String)
  deriving DecidableEq, Repr

/-- How the client `Patch` ended: with a nil error, the client having decoded the answer of
the API server into the object it was given (`stored` is that object afterwards), or with an
error, the object being left as it was. -/
inductive PatchResult where
  | applied (stored : ConfigMap)
  | failed (err : String)
  deriving DecidableEq, Repr

/-- A call of the replication loop that left the process: the object it was made on and how
it ended (for the upsert the returned error, `none` is `nil`). -/
inductive Call where
  | patch (obj : ConfigMap) (res : PatchResult)
  | addOrUpdate (cm : ConfigMap) (err : Option String)
  deriving DecidableEq, Repr

/-- How a function of the controller ended: `nil` error, a returned error, a Go panic. -/
inductive Outcome where
  | ok
  | failed (err : String)
  | panicked
  deriving DecidableEq, Repr

/-- Everything outside the process. `ListConfigMirrors` and `ListConfigMaps` give the items
the call wrote into the list together with its error; `Patch` and `AddOrUpdate` may answer
differently as the pass proceeds, so they see the calls made so far. `SelectorError` is the
error `metav1.LabelSelectorAsSelector` returns for a `matchLabels` map (`none` is `nil`): the
library validates the syntax of every key and value, its rules are not among the sources. -/
structure Env where
  GetConfigMap : String → String → GetResult
  ListConfigMirrors : List ConfigMirror × Option String
  GetConfigMirror : String → String → Except String ConfigMirror
  SelectorError : GoMap → Option String
  ListConfigMaps : String → GoMap → List ConfigMap × Option String
  Patch : List Call → ConfigMap → PatchResult
  AddOrUpdate : List Call → ConfigMap → Option String
  SaveReplicationAction : Bool

/-! ## The reverse router -/

/-- The request appended for a definition (lines 257-261). -/
def requestFor (configMirror : ConfigMirror) : Request :=
  { Namespace := configMirror.Namespace, Name := configMirror.Name }

/-- The library function `metav1.LabelSelectorAsSelector` on a selector made of
`matchLabels`: `Except.error err` stands for the result `(nil, err)`, `Except.ok selector` for
`(selector, nil)`, the selector being given by its equality requirements (read by
`selectorMatches`). -/
def LabelSelectorAsSelector (env : Env) (matchLabels : GoMap) : Except String GoMap :=
  match env.SelectorError matchLabels with
  | some err => Except.error err
  | none => Except.ok matchLabels

/-- The loop of `EnqueueRequest` over `configMirrorList.Items` (lines 250-264). Line 255
discards the error of the conversion, so after a failed conversion `selector` is nil and the
call `selector.Matches` of line 256 panics: the result `none`. -/
def enqueueLoop (env : Env) (obj : ConfigMap) :
    List ConfigMirror → List Request → Option (List Request)
  | [], reqs => some reqs
  | configMirror :: rest, reqs =>
    if obj.Namespace = configMirror.Spec.SourceNamespace then
      match LabelSelectorAsSelector env configMirror.Spec.Selector.MatchLabels with
      | Except.error _ => none
      | Except.ok selector =>
        if selectorMatches selector obj.Labels then
          enqueueLoop env obj rest (reqs ++ [requestFor configMirror])
        else enqueueLoop env obj rest reqs
    else enqueueLoop env obj rest reqs

/-- The method `EnqueueRequest` (lines 224-266). The first component is the object `obj`
points to when the call ends, the second the returned requests, `none` when the call ends in
a panic. The error of the definition `List` is discarded, as in the code. -/
def EnqueueRequest (env : Env) (obj : ConfigMap) : ConfigMap × Option (List Request) :=
  let reqs : List Request := []
  match annGet obj.Annotations (utils.GetAnnotationKey utils.MirrorKey) with
  | some _ =>
    match env.GetConfigMap obj.Namespace obj.Name with
    | GetResult.notFound =>
      let _sourceNamespace :=
        (annGet obj.Annotations (utils.GetAnnotationKey utils.SourceNamespace)).getD ""
      let obj := { obj with Namespace := _sourceNamespace }
      (obj, enqueueLoop env obj env.ListConfigMirrors.1 reqs)
    | GetResult.failed _ => (obj, some reqs)
    | GetResult.found => (obj, some reqs)
  | none => (obj, enqueueLoop env obj env.ListConfigMirrors.1 reqs)

/-! ## Replication -/

/-- The method `updateConfigMapAnnotations` (lines 218-222). The result is the replica after
the three writes; `none` is the panic of a write into a nil map. -/
def updateConfigMapAnnotations (_configMap : ConfigMap) (configMap : ConfigMap)
    (configMirror : ConfigMirror) : Option ConfigMap :=
  match _configMap.Annotations with
  | none => none
  | some a =>
    let a := mapSet a (utils.GetAnnotationKey utils.MirrorKey) configMap.UID
    let a := mapSet a (utils.GetAnnotationKey utils.SourceNamespace) configMap.Namespace
    let a := mapSet a (utils.GetAnnotationKey utils.ManagedBy)
      (configMirror.Namespace ++ "/" ++ configMirror.Name)
    some { _configMap with Annotations := some a }

/-- Lines 154-165 of `replicateConfigMaps`: the replica built for one source object and one
target namespace, as it is handed to `Patch`. -/
def buildReplica (configMirror : ConfigMirror) (targetNamespace : String)
    (configMap : ConfigMap) : Option ConfigMap :=
  let _configMap := configMap
  let _configMap := { _configMap with Namespace := targetNamespace }
  let _configMap := { _configMap with UID := "" }
  let _configMap := { _configMap with ResourceVersion := "" }
  let _configMap := { _configMap with ManagedFields := none }
  let _configMap :=
    { _configMap with Annotations := _configMap.Annotations.map (fun a => mapDelete a lastAppliedKey) }
  let _configMap :=
    if _configMap.Annotations = none then { _configMap with Annotations := some [] }
    else _configMap
  updateConfigMapAnnotations _configMap configMap configMirror

/-- The error of line 171. -/
def replicateError (configMap _configMap : ConfigMap) (err : String) : String :=
  "failed to replicate " ++ configMap.Namespace ++ "/" ++ configMap.Name ++ " to " ++
    _configMap.Namespace ++ "/" ++ _configMap.Name ++ " due to: " ++ err

/-- The body of the inner loop of `replicateConfigMaps` (lines 154-186) for one pair. After a
successful `Patch` the variable `_configMap` holds what the client decoded into it, and that
is the object handed to `AddOrUpdate`. -/
def replicateOne (env : Env) (configMirror : ConfigMirror) (targetNamespace : String)
    (configMap : ConfigMap) (tr : List Call) : List Call × Outcome :=
  match buildReplica configMirror targetNamespace configMap with
  | none => (tr, Outcome.panicked)
  | some _configMap =>
    match env.Patch tr _configMap with
    | PatchResult.failed err =>
      (tr ++ [Call.patch _configMap (PatchResult.failed err)],
        Outcome.failed (replicateError configMap _configMap err))
    | PatchResult.applied stored =>
      let tr := tr ++ [Call.patch _configMap (PatchResult.applied stored)]
      let _configMap := stored
      if env.SaveReplicationAction then
        match env.AddOrUpdate tr _configMap with
        | some err => (tr ++ [Call.addOrUpdate _configMap (some err)], Outcome.failed err)
        | none => (tr ++ [Call.addOrUpdate _configMap none], Outcome.ok)
      else (tr, Outcome.ok)

/-- The inner loop of `replicateConfigMaps` (line 152) for one target namespace. -/
def replicateInto (env : Env) (configMirror : ConfigMirror) (targetNamespace : String) :
    List ConfigMap → List Call → List Call × Outcome
  | [], tr => (tr, Outcome.ok)
  | configMap :: rest, tr =>
    match replicateOne env configMirror targetNamespace configMap tr with
    | (tr, Outcome.ok) => replicateInto env configMirror targetNamespace rest tr
    | r => r

/-- The outer loop of `replicateConfigMaps` (line 151) over the target namespaces. -/
def replicateTargets (env : Env) (configMirror : ConfigMirror) (configMaps : List ConfigMap) :
    List String → List Call → List Call × Outcome
  | [], tr => (tr, Outcome.ok)
  | targetNamespace :: rest, tr =>
    match replicateInto env configMirror targetNamespace configMaps tr with
    | (tr, Outcome.ok) => replicateTargets env configMirror configMaps rest tr
    | r => r

/-- The method `replicateConfigMaps` (lines 149-191), started after the calls `tr`. -/
def replicateConfigMaps (env : Env) (configMirror : ConfigMirror) (configMaps : List ConfigMap)
    (tr : List Call) : List Call × Outcome :=
  replicateTargets env configMirror configMaps configMirror.Spec.TargetNamespaces tr

/-- The method `fetchMatchingConfigMaps` (lines 193-216): the returned list pointer
(`none` is `nil`) and the returned error. When the selector conversion fails (lines 199-203)
the error is returned and `List` is not called. -/
def fetchMatchingConfigMaps (env : Env) (configMirror : ConfigMirror) :
    Option (List ConfigMap) × Option String :=
  match LabelSelectorAsSelector env configMirror.Spec.Selector.MatchLabels with
  | Except.error err => (none, some err)
  | Except.ok asSelector =>
    let res := env.ListConfigMaps configMirror.Spec.SourceNamespace asSelector
    match res.2 with
    | some err => (none, some err)
    | none => (some res.1, none)

/-- The method `Reconcile` (lines 116-147), started after the calls `tr`. -/
def Reconcile (env : Env) (req : Request) (tr : List Call) : List Call × Outcome :=
  match env.GetConfigMirror req.Namespace req.Name with
  | Except.error err => (tr, Outcome.failed err)
  | Except.ok configMirror =>
    match fetchMatchingConfigMaps env configMirror with
    | (_, some err) => (tr, Outcome.failed err)
    | (none, none) => (tr, Outcome.panicked)
    | (some configmaps, none) =>
      if configmaps.length > 0 then
        replicateConfigMaps env configMirror configmaps tr
      else (tr, Outcome.ok)

/-! ## Specification-side predicates -/

/-- The routing condition in the words of the spec (section 4.3, step 2): the object's
namespace is the definition's source namespace and every selector key is present in the
object's labels with the same value. -/
def selects (D : ConfigMirror) (ns : String) (labels : GoMap) : Prop :=
  ns = D.Spec.SourceNamespace ∧ ∀ p ∈ D.Spec.Selector.MatchLabels, mapGet labels p.1 = some p.2

instance selectsDecidable (D : ConfigMirror) (ns : String) (labels : GoMap) :
    Decidable (selects D ns labels) := by
  unfold selects; infer_instance

/-- The definitions of a list that select an object with the given namespace and labels, as
requests, in list order. -/
def selecting (defs : List ConfigMirror) (ns : String) (labels : GoMap) : List Request :=
  (defs.filter (fun D => decide (selects D ns labels))).map requestFor

/-! ## Concrete inputs -/

/-- A definition mirroring `app=test` objects of `default` into `team-a`. -/
def demoMirror : ConfigMirror :=
  { Name := "cm", Namespace := "ops",
    Spec := { SourceNamespace := "default", TargetNamespaces := ["team-a"],
              Selector := { MatchLabels := [("app", "test")] } } }

/-- A source object selected by `demoMirror`. -/
def demoSource : ConfigMap :=
  { Name := "cfg", Namespace := "default", UID := "u-1", ResourceVersion := "41",
    Labels := [("app", "test")], Annotations := none, ManagedFields := some ["kubectl"],
    Data := [("k", "v")] }

/-- A replica of `demoSource` living in `team-a`. -/
def demoReplica : ConfigMap :=
  { Name := "cfg", Namespace := "team-a", UID := "u-2", ResourceVersion := "7",
    Labels := [("app", "test")],
    Annotations := some [("bennsimon.github.io/mirror", "u-1"),
      ("bennsimon.github.io/sourceNamespace", "default"),
      ("bennsimon.github.io/managed-by", "ops/cm")],
    ManagedFields := none, Data := [("k", "v")] }

/-- An environment in which every call succeeds, the re-fetch of a replica answers `get`,
one definition exists, one source object is listed, every selector converts, and the API
server answers a `Patch` with the object it was sent under a fresh unique id and version
token. -/
def demoEnv (get : GetResult) : Env :=
  { GetConfigMap := fun _ _ => get,
    ListConfigMirrors := ([demoMirror], none),
    GetConfigMirror := fun _ _ => Except.ok demoMirror,
    SelectorError := fun _ => none,
    ListConfigMaps := fun _ _ => ([demoSource], none),
    Patch := fun _ obj =>
      PatchResult.applied { obj with UID := "srv-" ++ obj.Namespace, ResourceVersion := "1" },
    AddOrUpdate := fun _ _ => none,
    SaveReplicationAction := true }

/-- A source object as a test client lists it: no unique id, no version token, no
annotations. -/
def bareSource : ConfigMap :=
  { Name := "test", Namespace := "default", UID := "", ResourceVersion := "",
    Labels := [("app", "test")], Annotations := none, ManagedFields := none, Data := [] }

/-- A second source object selected by `demoMirror`. -/
def demoSource2 : ConfigMap :=
  { Name := "cfg2", Namespace := "default", UID := "u-3", ResourceVersion := "12",
    Labels := [("app", "test")],
    Annotations := some [("kubectl.kubernetes.io/last-applied-configuration", "json")],
    ManagedFields := none, Data := [] }

/-- The environment `demoEnv` with an audit store that refuses every upsert. -/
def storeDownEnv : Env :=
  { demoEnv GetResult.found with AddOrUpdate := fun _ _ => some "store down" }

/-- The environment `demoEnv` in which the source namespace holds no matching object. -/
def noMatchEnv : Env :=
  { demoEnv GetResult.found with ListConfigMaps := fun _ _ => ([], none) }

/-- The environment `demoEnv` in which listing the source namespace fails after one item
was written into the list. -/
def listDownEnv : Env :=
  { demoEnv GetResult.found with ListConfigMaps := fun _ _ => ([demoSource], some "timeout") }

/-- A definition on the source namespace `default` whose selector asks for a label value
that holds a blank and an exclamation mark. -/
def rejectedMirror : ConfigMirror :=
  { Name := "bad", Namespace := "ops",
    Spec := { SourceNamespace := "default", TargetNamespaces := ["team-c"],
              Selector := { MatchLabels := [("app", "bad value!")] } } }

/-- The environment `demoEnv` with the definitions `demoMirror` and `rejectedMirror` and a
selector conversion that rejects a label value holding a blank, as the library's validation
of label values does. -/
def strictEnv (get : GetResult) : Env :=
  { demoEnv get with
    ListConfigMirrors := ([demoMirror, rejectedMirror], none),
    GetConfigMirror := fun _ name =>
      if name = "bad" then Except.ok rejectedMirror else Except.ok demoMirror,
    SelectorError := fun matchLabels =>
      if matchLabels.any (fun p => p.2.data.contains ' ') then some "invalid label value"
      else none }

/-! ## Replication in closed form -/

/-- The (target namespace, source object) pairs of a pass, target-major. -/
def pairs : List String → List ConfigMap → List (String × ConfigMap)
  | [], _ => []
  | T :: rest, configMaps => configMaps.map (fun S => (T, S)) ++ pairs rest configMaps

/-- The annotation map of the replica of `S` under definition `D`: the annotations of `S`
without the last-applied key, with the three provenance keys written. -/
def replicaAnnotations (D : ConfigMirror) (S : ConfigMap) : GoMap :=
  mapSet
    (mapSet
      (mapSet
        (match S.Annotations with
          | none => []
          | some a => mapDelete a lastAppliedKey)
        (utils.GetAnnotationKey utils.MirrorKey) S.UID)
      (utils.GetAnnotationKey utils.SourceNamespace) S.Namespace)
    (utils.GetAnnotationKey utils.ManagedBy) (D.Namespace ++ "/" ++ D.Name)

/-- The replica of `S` in target namespace `T` under definition `D`. -/
def replicaOf (D : ConfigMirror) (T : String) (S : ConfigMap) : ConfigMap :=
  { S with Namespace := T, UID := "", ResourceVersion := "", ManagedFields := none,
           Annotations := some (replicaAnnotations D S) }

/-- The object a call was made on. -/
def Call.object : Call → ConfigMap
  | Call.patch obj _ => obj
  | Call.addOrUpdate cm _ => cm

/-- The calls `calls` are those of a pass over the pairs `ps` in which every call succeeds:
for each pair in order, a successful `Patch` of its replica and, with persistence enabled,
directly after it a successful upsert of the object the `Patch` left. -/
def Applied (save : Bool) (D : ConfigMirror) : List (String × ConfigMap) → List Call → Prop
  | [], calls => calls = []
  | p :: rest, calls =>
    ∃ stored tail, Applied save D rest tail ∧
      calls =
        (if save then
            [Call.patch (replicaOf D p.1 p.2) (PatchResult.applied stored),
             Call.addOrUpdate stored none]
          else [Call.patch (replicaOf D p.1 p.2) (PatchResult.applied stored)]) ++ tail

/-- What a pass over the pairs `ps`, started after the calls `tr`, can end as: every call
succeeded; or the `Patch` of one pair failed after the pairs before it went through; or, with
persistence enabled, the upsert of one pair failed after its `Patch` and the pairs before it
went through. -/
def PassResult (env : Env) (D : ConfigMirror) (ps : List (String × ConfigMap))
    (tr : List Call) (res : List Call × Outcome) : Prop :=
  (∃ calls, Applied env.SaveReplicationAction D ps calls ∧ res = (tr ++ calls, Outcome.ok)) ∨
  (∃ pre T S post calls e, ps = pre ++ (T, S) :: post ∧
      Applied env.SaveReplicationAction D pre calls ∧
      res = (tr ++ calls ++ [Call.patch (replicaOf D T S) (PatchResult.failed e)],
             Outcome.failed (replicateError S (replicaOf D T S) e))) ∨
  (∃ pre T S post calls stored e, env.SaveReplicationAction = true ∧
      ps = pre ++ (T, S) :: post ∧
      Applied env.SaveReplicationAction D pre calls ∧
      res = (tr ++ calls ++
              [Call.patch (replicaOf D T S) (PatchResult.applied stored),
               Call.addOrUpdate stored (some e)],
             Outcome.failed e))

/-- The objects of the successful `Patch` calls of a trace, in call order. -/
def appliedObjects (calls : List Call) : List ConfigMap :=
  calls.filterMap (fun c =>
    match c with
    | Call.patch obj (PatchResult.applied _) => some obj
    | _ => none)

/-- The upserts of a trace, in call order: the object handed to the audit store and the
error it returned. -/
def upserts (calls : List Call) : List (ConfigMap × Option String) :=
  calls.filterMap (fun c =>
    match c with
    | Call.addOrUpdate cm err => some (cm, err)
    | _ => none)

/-- A definition mirroring `app=test` objects of `default` into `team-a` and `team-b`. -/
def twoTargetMirror : ConfigMirror :=
  { Name := "cm2", Namespace := "ops",
    Spec := { SourceNamespace := "default", TargetNamespaces := ["team-a", "team-b"],
              Selector := { MatchLabels := [("app", "test")] } } }

/-- The environment `demoEnv` with an API server that refuses every `Patch` into `team-b`. -/
def teamBDownEnv : Env :=
  { demoEnv GetResult.found with
    Patch := fun _ obj =>
      if obj.Namespace = "team-b" then PatchResult.failed "forbidden"
      else PatchResult.applied
        { obj with UID := "srv-" ++ obj.Namespace, ResourceVersion := "1" } }

/-! ## Lemmas on maps and on the selector -/

theorem mapGet_mapSet (m : GoMap) (k v k' : String) :
    mapGet (mapSet m k v) k' = if k = k' then some v else mapGet m k' := by
  induction m with
  | nil => simp [mapSet, mapGet]
  | cons hd tl ih =>
    obtain ⟨a, b⟩ := hd
    by_cases hak : a = k
    · subst hak
      by_cases h2 : a = k' <;> simp [mapSet, mapGet, h2]
    · by_cases h2 : k = k'
      · subst h2
        simp [mapSet, mapGet, hak, ih]
      · simp [mapSet, mapGet, hak, ih, h2]

theorem mapDelete_cons (a b : String) (tl : GoMap) (k : String) :
    mapDelete ((a, b) :: tl) k = if a = k then mapDelete tl k else (a, b) :: mapDelete tl k := by
  by_cases h : a = k <;> simp [mapDelete, List.filter_cons, h]

theorem mapGet_mapDelete (m : GoMap) (k k' : String) :
    mapGet (mapDelete m k) k' = if k = k' then none else mapGet m k' := by
  induction m with
  | nil => simp [mapDelete, mapGet]
  | cons hd tl ih =>
    obtain ⟨a, b⟩ := hd
    rw [mapDelete_cons]
    by_cases hak : a = k
    · subst hak
      rw [if_pos rfl, ih]
      by_cases h2 : a = k' <;> simp [mapGet, h2]
    · rw [if_neg hak]
      simp only [mapGet, ih]
      by_cases h2 : k = k'
      · subst h2
        simp [hak]
      · simp [h2]

theorem selectorMatches_iff (matchLabels labels : GoMap) :
    selectorMatches matchLabels labels = true ↔
      ∀ p ∈ matchLabels, mapGet labels p.1 = some p.2 := by
  unfold selectorMatches
  rw [List.all_eq_true]
  constructor
  · intro h p hp
    have := h p hp
    cases hg : mapGet labels p.1 with
    | none => simp [hg] at this
    | some v => simpa [hg] using this
  · intro h p hp
    simp [h p hp]

theorem selecting_cons (D : ConfigMirror) (rest : List ConfigMirror) (ns : String)
    (labels : GoMap) :
    selecting (D :: rest) ns labels =
      if selects D ns labels then requestFor D :: selecting rest ns labels
      else selecting rest ns labels := by
  by_cases h : selects D ns labels <;> simp [selecting, List.filter_cons, h]

theorem enqueueLoop_eq (env : Env) (obj : ConfigMap) (defs : List ConfigMirror)
    (reqs : List Request)
    (hacc : ∀ D ∈ defs, obj.Namespace = D.Spec.SourceNamespace →
      env.SelectorError D.Spec.Selector.MatchLabels = none) :
    enqueueLoop env obj defs reqs = some (reqs ++ selecting defs obj.Namespace obj.Labels) := by
  induction defs generalizing reqs with
  | nil => simp [enqueueLoop, selecting]
  | cons D rest ih =>
    have hrest : ∀ D1 ∈ rest, obj.Namespace = D1.Spec.SourceNamespace →
        env.SelectorError D1.Spec.Selector.MatchLabels = none :=
      fun D1 h1 => hacc D1 (List.mem_cons_of_mem _ h1)
    rw [selecting_cons]
    unfold enqueueLoop
    by_cases hns : obj.Namespace = D.Spec.SourceNamespace
    · have hconv : LabelSelectorAsSelector env D.Spec.Selector.MatchLabels
          = Except.ok D.Spec.Selector.MatchLabels := by
        simp [LabelSelectorAsSelector, hacc D (List.mem_cons_self _ _) hns]
      rw [if_pos hns, hconv]
      simp only
      by_cases hsel : selectorMatches D.Spec.Selector.MatchLabels obj.Labels = true
      · have hs : selects D obj.Namespace obj.Labels :=
          ⟨hns, (selectorMatches_iff _ _).1 hsel⟩
        rw [if_pos hsel, if_pos hs, ih _ hrest]
        simp
      · have hs : ¬ selects D obj.Namespace obj.Labels :=
          fun h => hsel ((selectorMatches_iff _ _).2 h.2)
        rw [if_neg hsel, if_neg hs, ih _ hrest]
    · have hs : ¬ selects D obj.Namespace obj.Labels := fun h => hns h.1
      rw [if_neg hns, if_neg hs, ih _ hrest]

theorem enqueueLoop_panics (env : Env) (obj : ConfigMap) (defs : List ConfigMirror)
    (reqs : List Request) (D : ConfigMirror) (hD : D ∈ defs)
    (hns : obj.Namespace = D.Spec.SourceNamespace) (e : String)
    (hrej : env.SelectorError D.Spec.Selector.MatchLabels = some e) :
    enqueueLoop env obj defs reqs = none := by
  induction defs generalizing reqs with
  | nil => cases hD
  | cons D0 rest ih =>
    unfold enqueueLoop
    rcases List.mem_cons.1 hD with rfl | hrest
    · simp [hns, LabelSelectorAsSelector, hrej]
    · by_cases h0 : obj.Namespace = D0.Spec.SourceNamespace
      · rw [if_pos h0]
        cases hc : LabelSelectorAsSelector env D0.Spec.Selector.MatchLabels with
        | error e0 => rfl
        | ok selector =>
          simp only
          by_cases hsel : selectorMatches selector obj.Labels = true
          · rw [if_pos hsel]; exact ih _ hrest
          · rw [if_neg hsel]; exact ih _ hrest
      · rw [if_neg h0]; exact ih _ hrest

theorem mem_selecting (defs : List ConfigMirror) (ns : String) (labels : GoMap) (r : Request) :
    r ∈ selecting defs ns labels ↔ ∃ D ∈ defs, selects D ns labels ∧ r = requestFor D := by
  unfold selecting
  simp only [List.mem_map, List.mem_filter, decide_eq_true_eq]
  constructor
  · rintro ⟨D, ⟨hD, hs⟩, rfl⟩
    exact ⟨D, hD, hs, rfl⟩
  · rintro ⟨D, hD, hs, rfl⟩
    exact ⟨D, ⟨hD, hs⟩, rfl⟩

/-! ## Lemmas on the replication loop -/

theorem buildReplica_eq (D : ConfigMirror) (T : String) (S : ConfigMap) :
    buildReplica D T S = some (replicaOf D T S) := by
  cases hA : S.Annotations <;>
    simp [buildReplica, updateConfigMapAnnotations, replicaOf, replicaAnnotations, hA]

theorem applied_append (save : Bool) (D : ConfigMirror) (ps qs : List (String × ConfigMap))
    (c1 c2 : List Call) (h1 : Applied save D ps c1) (h2 : Applied save D qs c2) :
    Applied save D (ps ++ qs) (c1 ++ c2) := by
  induction ps generalizing c1 with
  | nil =>
    simp only [Applied] at h1
    subst h1
    simpa using h2
  | cons p rest ih =>
    obtain ⟨stored, tail, ht, hc⟩ := h1
    refine ⟨stored, tail ++ c2, ih tail ht, ?_⟩
    rw [hc, List.append_assoc]

theorem passResult_one (env : Env) (D : ConfigMirror) (T : String) (S : ConfigMap)
    (tr : List Call) : PassResult env D [(T, S)] tr (replicateOne env D T S tr) := by
  unfold replicateOne
  rw [buildReplica_eq]
  simp only
  cases hp : env.Patch tr (replicaOf D T S) with
  | failed e =>
    right; left
    exact ⟨[], T, S, [], [], e, rfl, rfl, by simp⟩
  | applied stored =>
    cases hs : env.SaveReplicationAction with
    | false =>
      left
      exact ⟨[Call.patch (replicaOf D T S) (PatchResult.applied stored)],
        ⟨stored, [], rfl, by simp [hs]⟩, by simp⟩
    | true =>
      simp only [if_true]
      cases ha : env.AddOrUpdate
          (tr ++ [Call.patch (replicaOf D T S) (PatchResult.applied stored)]) stored with
      | some e =>
        right; right
        exact ⟨[], T, S, [], [], stored, e, hs, rfl, rfl, by simp⟩
      | none =>
        left
        exact ⟨[Call.patch (replicaOf D T S) (PatchResult.applied stored),
            Call.addOrUpdate stored none],
          ⟨stored, [], rfl, by simp [hs]⟩, by simp⟩

theorem passResult_ok_trace (env : Env) (D : ConfigMirror) (ps : List (String × ConfigMap))
    (tr tr1 : List Call) (h : PassResult env D ps tr (tr1, Outcome.ok)) :
    ∃ calls, Applied env.SaveReplicationAction D ps calls ∧ tr1 = tr ++ calls := by
  rcases h with ⟨calls, ha, h⟩ | ⟨pre, T, S, post, calls, e, _, _, h⟩ |
    ⟨pre, T, S, post, calls, stored, e, _, _, _, h⟩
  · exact ⟨calls, ha, (Prod.mk.inj h).1⟩
  · exact absurd (Prod.mk.inj h).2 (by simp)
  · exact absurd (Prod.mk.inj h).2 (by simp)

theorem passResult_append_ok (env : Env) (D : ConfigMirror) (ps qs : List (String × ConfigMap))
    (tr tr1 : List Call) (res : List Call × Outcome)
    (h1 : PassResult env D ps tr (tr1, Outcome.ok)) (h2 : PassResult env D qs tr1 res) :
    PassResult env D (ps ++ qs) tr res := by
  obtain ⟨c1, ha1, htr⟩ := passResult_ok_trace env D ps tr tr1 h1
  subst htr
  rcases h2 with ⟨calls, ha, h⟩ | ⟨pre, T, S, post, calls, e, hq, ha, h⟩ |
    ⟨pre, T, S, post, calls, stored, e, hs, hq, ha, h⟩
  · left
    exact ⟨c1 ++ calls, applied_append _ D ps qs c1 calls ha1 ha, by
      rw [h, List.append_assoc]⟩
  · right; left
    refine ⟨ps ++ pre, T, S, post, c1 ++ calls, e, by simp [hq],
      applied_append _ D ps pre c1 calls ha1 ha, ?_⟩
    rw [h]; simp [List.append_assoc]
  · right; right
    refine ⟨ps ++ pre, T, S, post, c1 ++ calls, stored, e, hs, by simp [hq],
      applied_append _ D ps pre c1 calls ha1 ha, ?_⟩
    rw [h]; simp [List.append_assoc]

theorem passResult_append_failed (env : Env) (D : ConfigMirror)
    (ps qs : List (String × ConfigMap)) (tr : List Call) (res : List Call × Outcome)
    (h1 : PassResult env D ps tr res) (hne : res.2 ≠ Outcome.ok) :
    PassResult env D (ps ++ qs) tr res := by
  rcases h1 with ⟨calls, ha, h⟩ | ⟨pre, T, S, post, calls, e, hq, ha, h⟩ |
    ⟨pre, T, S, post, calls, stored, e, hs, hq, ha, h⟩
  · rw [h] at hne; exact absurd rfl hne
  · right; left
    exact ⟨pre, T, S, post ++ qs, calls, e, by simp [hq], ha, h⟩
  · right; right
    exact ⟨pre, T, S, post ++ qs, calls, stored, e, hs, by simp [hq], ha, h⟩

theorem passResult_replicateInto (env : Env) (D : ConfigMirror) (T : String)
    (configMaps : List ConfigMap) (tr : List Call) :
    PassResult env D (configMaps.map (fun S => (T, S))) tr
      (replicateInto env D T configMaps tr) := by
  induction configMaps generalizing tr with
  | nil => left; exact ⟨[], rfl, by simp [replicateInto]⟩
  | cons S rest ih =>
    have h1 := passResult_one env D T S tr
    have hsplit : (S :: rest).map (fun S => (T, S)) = [(T, S)] ++ rest.map (fun S => (T, S)) := by
      simp
    rw [hsplit]
    unfold replicateInto
    rcases hres : replicateOne env D T S tr with ⟨tr1, o⟩
    rw [hres] at h1
    cases o with
    | ok => exact passResult_append_ok env D _ _ tr tr1 _ h1 (ih tr1)
    | failed e => exact passResult_append_failed env D _ _ tr _ h1 (by simp)
    | panicked => exact passResult_append_failed env D _ _ tr _ h1 (by simp)

theorem passResult_replicateTargets (env : Env) (D : ConfigMirror) (configMaps : List ConfigMap)
    (targets : List String) (tr : List Call) :
    PassResult env D (pairs targets configMaps) tr
      (replicateTargets env D configMaps targets tr) := by
  induction targets generalizing tr with
  | nil => left; exact ⟨[], rfl, by simp [replicateTargets]⟩
  | cons T rest ih =>
    have h1 := passResult_replicateInto env D T configMaps tr
    unfold replicateTargets pairs
    rcases hres : replicateInto env D T configMaps tr with ⟨tr1, o⟩
    rw [hres] at h1
    cases o with
    | ok => exact passResult_append_ok env D _ _ tr tr1 _ h1 (ih tr1)
    | failed e => exact passResult_append_failed env D _ _ tr _ h1 (by simp)
    | panicked => exact passResult_append_failed env D _ _ tr _ h1 (by simp)

theorem passResult_replicateConfigMaps (env : Env) (D : ConfigMirror)
    (configMaps : List ConfigMap) (tr : List Call) :
    PassResult env D (pairs D.Spec.TargetNamespaces configMaps) tr
      (replicateConfigMaps env D configMaps tr) :=
  passResult_replicateTargets env D configMaps D.Spec.TargetNamespaces tr

theorem mem_pairs (targets : List String) (configMaps : List ConfigMap) (T : String)
    (S : ConfigMap) : (T, S) ∈ pairs targets configMaps ↔ T ∈ targets ∧ S ∈ configMaps := by
  induction targets with
  | nil => simp [pairs]
  | cons T1 rest ih =>
    simp only [pairs, List.mem_append, List.mem_map, Prod.mk.injEq, ih, List.mem_cons]
    constructor
    · rintro (⟨S1, hS1, rfl, rfl⟩ | ⟨hT, hS⟩)
      · exact ⟨Or.inl rfl, hS1⟩
      · exact ⟨Or.inr hT, hS⟩
    · rintro ⟨rfl | hT, hS⟩
      · exact Or.inl ⟨S, hS, rfl, rfl⟩
      · exact Or.inr ⟨hT, hS⟩

theorem applied_patch_mem (save : Bool) (D : ConfigMirror) (ps : List (String × ConfigMap))
    (calls : List Call) (ha : Applied save D ps calls) (T : String) (S : ConfigMap)
    (h : (T, S) ∈ ps) :
    ∃ stored, Call.patch (replicaOf D T S) (PatchResult.applied stored) ∈ calls := by
  induction ps generalizing calls with
  | nil => cases h
  | cons p rest ih =>
    obtain ⟨stored, tail, ht, hc⟩ := ha
    rcases List.mem_cons.1 h with rfl | h
    · exact ⟨stored, by rw [hc]; cases save <;> simp⟩
    · obtain ⟨st, hm⟩ := ih tail ht h
      exact ⟨st, by rw [hc]; exact List.mem_append_right _ hm⟩

theorem applied_patch_object (save : Bool) (D : ConfigMirror) (ps : List (String × ConfigMap))
    (calls : List Call) (ha : Applied save D ps calls) (r : ConfigMap) (res : PatchResult)
    (h : Call.patch r res ∈ calls) : ∃ T S, (T, S) ∈ ps ∧ r = replicaOf D T S := by
  induction ps generalizing calls with
  | nil =>
    simp only [Applied] at ha
    subst ha
    cases h
  | cons p rest ih =>
    obtain ⟨stored, tail, ht, hc⟩ := ha
    rw [hc, List.mem_append] at h
    rcases h with h | h
    · refine ⟨p.1, p.2, List.mem_cons_self _ _, ?_⟩
      cases save <;> simp at h <;> exact h.1
    · obtain ⟨T, S, hm, hr⟩ := ih tail ht h
      exact ⟨T, S, List.mem_cons_of_mem _ hm, hr⟩

theorem applied_no_failed_upsert (save : Bool) (D : ConfigMirror)
    (ps : List (String × ConfigMap)) (calls : List Call) (ha : Applied save D ps calls)
    (o : ConfigMap) (e : String) : Call.addOrUpdate o (some e) ∉ calls := by
  induction ps generalizing calls with
  | nil =>
    simp only [Applied] at ha
    subst ha
    simp
  | cons p rest ih =>
    obtain ⟨stored, tail, ht, hc⟩ := ha
    rw [hc, List.mem_append, not_or]
    refine ⟨?_, ih tail ht⟩
    cases save <;> simp

theorem passResult_patch_object (env : Env) (D : ConfigMirror)
    (ps : List (String × ConfigMap)) (res : List Call × Outcome)
    (h : PassResult env D ps [] res) (r : ConfigMap) (pr : PatchResult)
    (hc : Call.patch r pr ∈ res.1) : ∃ T S, (T, S) ∈ ps ∧ r = replicaOf D T S := by
  rcases h with ⟨calls, ha, h⟩ | ⟨pre, T, S, post, calls, e, hq, ha, h⟩ |
    ⟨pre, T, S, post, calls, stored, e, _, hq, ha, h⟩
  · rw [h] at hc
    simp only [List.nil_append] at hc
    exact applied_patch_object _ D ps calls ha r pr hc
  · rw [h] at hc
    simp only [List.nil_append, List.mem_append, List.mem_singleton] at hc
    rcases hc with hc | hc
    · obtain ⟨T1, S1, hm, ho⟩ := applied_patch_object _ D pre calls ha r pr hc
      exact ⟨T1, S1, by rw [hq]; exact List.mem_append_left _ hm, ho⟩
    · injection hc with hr _
      exact ⟨T, S, by rw [hq]; simp, hr⟩
  · rw [h] at hc
    simp only [List.nil_append, List.mem_append, List.mem_cons, List.mem_singleton,
      List.not_mem_nil, or_false] at hc
    rcases hc with hc | hc | hc
    · obtain ⟨T1, S1, hm, ho⟩ := applied_patch_object _ D pre calls ha r pr hc
      exact ⟨T1, S1, by rw [hq]; exact List.mem_append_left _ hm, ho⟩
    · injection hc with hr _
      exact ⟨T, S, by rw [hq]; simp, hr⟩
    · cases hc

theorem annotationKeys_distinct :
    utils.GetAnnotationKey utils.MirrorKey ≠ utils.GetAnnotationKey utils.SourceNamespace ∧
    utils.GetAnnotationKey utils.MirrorKey ≠ utils.GetAnnotationKey utils.ManagedBy ∧
    utils.GetAnnotationKey utils.SourceNamespace ≠ utils.GetAnnotationKey utils.ManagedBy ∧
    lastAppliedKey ≠ utils.GetAnnotationKey utils.MirrorKey ∧
    lastAppliedKey ≠ utils.GetAnnotationKey utils.SourceNamespace ∧
    lastAppliedKey ≠ utils.GetAnnotationKey utils.ManagedBy := by
  decide

theorem mapGet_stamped (A : GoMap) (uid ns by_ k : String) :
    mapGet
        (mapSet
          (mapSet (mapSet A (utils.GetAnnotationKey utils.MirrorKey) uid)
            (utils.GetAnnotationKey utils.SourceNamespace) ns)
          (utils.GetAnnotationKey utils.ManagedBy) by_) k =
      if k = utils.GetAnnotationKey utils.MirrorKey then some uid
      else if k = utils.GetAnnotationKey utils.SourceNamespace then some ns
      else if k = utils.GetAnnotationKey utils.ManagedBy then some by_
      else mapGet A k := by
  obtain ⟨h12, h13, h23, _, _, _⟩ := annotationKeys_distinct
  simp only [mapGet_mapSet]
  by_cases h1 : k = utils.GetAnnotationKey utils.MirrorKey
  · subst h1
    simp [h12, h13, Ne.symm h12, Ne.symm h13]
  · by_cases h2 : k = utils.GetAnnotationKey utils.SourceNamespace
    · subst h2
      simp [h12, h23, Ne.symm h12, Ne.symm h23]
    · by_cases h3 : k = utils.GetAnnotationKey utils.ManagedBy
      · subst h3
        simp [Ne.symm h13, Ne.symm h23]
      · simp [h1, h2, h3, Ne.symm (a := k), eq_comm (b := k)]

theorem replicaOf_lastApplied (D : ConfigMirror) (T : String) (S : ConfigMap) :
    annGet (replicaOf D T S).Annotations lastAppliedKey = none := by
  obtain ⟨_, _, _, h1, h2, h3⟩ := annotationKeys_distinct
  simp only [replicaOf, annGet, replicaAnnotations, mapGet_stamped, if_neg h1, if_neg h2,
    if_neg h3]
  cases S.Annotations with
  | none => rfl
  | some a => simp [mapGet_mapDelete]

/-! ## The reverse router: claims -/

/-- The routing of an ordinary object where it returns: when every listed definition on the
object's namespace has `matchLabels` the selector conversion accepts, an object without the
mirror annotation is routed to exactly the definitions whose source namespace is the object's
namespace and whose selector keys are all present in the object's labels with the same value;
each returned request carries the namespace and the name of its definition. -/
theorem EnqueueRequest_ordinary_accepted (env : Env) (O : ConfigMap)
    (hO : annGet O.Annotations (utils.GetAnnotationKey utils.MirrorKey) = none)
    (hacc : ∀ D ∈ env.ListConfigMirrors.1, O.Namespace = D.Spec.SourceNamespace →
      env.SelectorError D.Spec.Selector.MatchLabels = none) :
    (EnqueueRequest env O).2 =
      some ((env.ListConfigMirrors.1.filter
          (fun D => decide (O.Namespace = D.Spec.SourceNamespace ∧
            ∀ p ∈ D.Spec.Selector.MatchLabels, mapGet O.Labels p.1 = some p.2))).map
        (fun D => ({ Namespace := D.Namespace, Name := D.Name } : Request))) := by
  simp only [EnqueueRequest, hO]
  rw [enqueueLoop_eq env O _ _ hacc]
  rfl

/-- C1 on the code. The changed object `cfg` of namespace `default` carries no mirror
annotation; the client lists two definitions on `default`, `ops/cm` which selects the object
and `ops/bad` whose `matchLabels` the selector conversion rejects. The claim has the call
return the one request `ops/cm`; on the code the call panics: line 255 discards the error of
the conversion and line 256 calls `Matches` on the nil selector. The sibling
`fetchMatchingConfigMaps` checks that error and returns it. Without `ops/bad` in the list the
call returns the request `ops/cm`. -/
theorem EnqueueRequest_ordinary_panics :
    annGet demoSource.Annotations (utils.GetAnnotationKey utils.MirrorKey) = none ∧
      (strictEnv GetResult.found).ListConfigMirrors.1 = [demoMirror, rejectedMirror] ∧
      [demoMirror, rejectedMirror].filter
          (fun D => decide (demoSource.Namespace = D.Spec.SourceNamespace ∧
            ∀ p ∈ D.Spec.Selector.MatchLabels, mapGet demoSource.Labels p.1 = some p.2))
        = [demoMirror] ∧
      (EnqueueRequest (strictEnv GetResult.found) demoSource).2 = none ∧
      fetchMatchingConfigMaps (strictEnv GetResult.found) rejectedMirror
        = (none, some "invalid label value") ∧
      (EnqueueRequest (demoEnv GetResult.found) demoSource).2
        = some [{ Namespace := "ops", Name := "cm" }] := by
  decide

/-- C2. For an object that carries the mirror annotation, whenever the re-fetch of its
(namespace, name) does not report not-found (it succeeds, or fails with another error), no
request is returned, whatever the definitions are. -/
theorem EnqueueRequest_live_replica (env : Env) (O : ConfigMap) (v : String)
    (hO : annGet O.Annotations (utils.GetAnnotationKey utils.MirrorKey) = some v)
    (hget : env.GetConfigMap O.Namespace O.Name ≠ GetResult.notFound) :
    (EnqueueRequest env O).2 = some [] := by
  unfold EnqueueRequest
  simp only [hO]
  cases hg : env.GetConfigMap O.Namespace O.Name with
  | notFound => exact absurd hg hget
  | failed e => rfl
  | found => rfl

theorem EnqueueRequest_live_replica_witness :
    annGet demoReplica.Annotations (utils.GetAnnotationKey utils.MirrorKey) = some "u-1" ∧
      (demoEnv GetResult.found).GetConfigMap demoReplica.Namespace demoReplica.Name
        ≠ GetResult.notFound ∧
      (EnqueueRequest (demoEnv GetResult.found) demoReplica).2 = some [] :=
  ⟨by decide, by decide,
    EnqueueRequest_live_replica (demoEnv GetResult.found) demoReplica "u-1" (by decide)
      (by decide)⟩

/-- The routing of a deleted replica where it returns: for an object that carries the mirror
annotation and the sourceNamespace annotation N, when the re-fetch reports not-found and every
listed definition on N has `matchLabels` the selector conversion accepts, the returned
requests are exactly the definitions with source namespace N whose selector matches the
object's labels, each request carrying the namespace and the name of its definition; this is
the result of routing any ordinary object with the same labels living in N. -/
theorem EnqueueRequest_deleted_replica_accepted (env : Env) (O : ConfigMap) (v N : String)
    (hO : annGet O.Annotations (utils.GetAnnotationKey utils.MirrorKey) = some v)
    (hN : annGet O.Annotations (utils.GetAnnotationKey utils.SourceNamespace) = some N)
    (hget : env.GetConfigMap O.Namespace O.Name = GetResult.notFound)
    (hacc : ∀ D ∈ env.ListConfigMirrors.1, N = D.Spec.SourceNamespace →
      env.SelectorError D.Spec.Selector.MatchLabels = none) :
    (EnqueueRequest env O).2 =
        some ((env.ListConfigMirrors.1.filter
            (fun D => decide (N = D.Spec.SourceNamespace ∧
              ∀ p ∈ D.Spec.Selector.MatchLabels, mapGet O.Labels p.1 = some p.2))).map
          (fun D => ({ Namespace := D.Namespace, Name := D.Name } : Request))) ∧
      ∀ O1 : ConfigMap,
        annGet O1.Annotations (utils.GetAnnotationKey utils.MirrorKey) = none →
        O1.Namespace = N → O1.Labels = O.Labels →
        (EnqueueRequest env O1).2 = (EnqueueRequest env O).2 := by
  have h : (EnqueueRequest env O).2 = some (selecting env.ListConfigMirrors.1 N O.Labels) := by
    simp only [EnqueueRequest, hO, hN, hget, Option.getD_some]
    rw [enqueueLoop_eq env _ _ _ hacc]
    rfl
  refine ⟨h, fun O1 h1 hns hl => ?_⟩
  rw [h]
  simp only [EnqueueRequest, h1]
  rw [enqueueLoop_eq env O1 _ _ (by rw [hns]; exact hacc), hns, hl]
  rfl

/-- C3 on the code. The replica `cfg` of `team-a` carries the mirror annotation and the
sourceNamespace annotation `default`, and its re-fetch reports not-found; the client lists
two definitions on `default`, `ops/cm` which selects the object's labels and `ops/bad` whose
`matchLabels` the selector conversion rejects. The claim has the call return the one request
`ops/cm`; on the code, after the namespace is rewritten to `default`, the call panics at
lines 255-256 as in C1. Without `ops/bad` in the list the call returns the request
`ops/cm`. -/
theorem EnqueueRequest_deleted_replica_panics :
    annGet demoReplica.Annotations (utils.GetAnnotationKey utils.MirrorKey) = some "u-1" ∧
      annGet demoReplica.Annotations (utils.GetAnnotationKey utils.SourceNamespace)
        = some "default" ∧
      (strictEnv GetResult.notFound).GetConfigMap demoReplica.Namespace demoReplica.Name
        = GetResult.notFound ∧
      (strictEnv GetResult.notFound).ListConfigMirrors.1 = [demoMirror, rejectedMirror] ∧
      [demoMirror, rejectedMirror].filter
          (fun D => decide ("default" = D.Spec.SourceNamespace ∧
            ∀ p ∈ D.Spec.Selector.MatchLabels, mapGet demoReplica.Labels p.1 = some p.2))
        = [demoMirror] ∧
      (EnqueueRequest (strictEnv GetResult.notFound) demoReplica).1.Namespace = "default" ∧
      (EnqueueRequest (strictEnv GetResult.notFound) demoReplica).2 = none ∧
      (EnqueueRequest (demoEnv GetResult.notFound) demoReplica).2
        = some [{ Namespace := "ops", Name := "cm" }] := by
  decide

/-- C8, as stated, fails: for a replica of `team-a` whose re-fetch reports not-found, the
object the caller passed has namespace `default` when `EnqueueRequest` returns. -/
theorem EnqueueRequest_mutates_namespace :
    demoReplica.Namespace = "team-a" ∧
      (EnqueueRequest (demoEnv GetResult.notFound) demoReplica).1.Namespace = "default" ∧
      (EnqueueRequest (demoEnv GetResult.notFound) demoReplica).1 ≠ demoReplica := by
  decide

/-- C8, amended. `EnqueueRequest` writes to its object in one case only: when the object
carries the mirror annotation and the re-fetch reports not-found, the object's namespace is
overwritten with the value of its sourceNamespace annotation (the empty string when absent)
and every other field keeps its value; in every other case the object after the call equals
the object before it. -/
theorem EnqueueRequest_object_after (env : Env) (O : ConfigMap) :
    (EnqueueRequest env O).1 =
      if (annGet O.Annotations (utils.GetAnnotationKey utils.MirrorKey)).isSome = true ∧
          env.GetConfigMap O.Namespace O.Name = GetResult.notFound then
        { O with Namespace :=
            (annGet O.Annotations (utils.GetAnnotationKey utils.SourceNamespace)).getD "" }
      else O := by
  unfold EnqueueRequest
  cases hO : annGet O.Annotations (utils.GetAnnotationKey utils.MirrorKey) with
  | none => simp
  | some v =>
    cases hg : env.GetConfigMap O.Namespace O.Name <;> simp

/-! ## Replication: claims -/

/-- C4. When `replicateConfigMaps` returns without error, for every target namespace T of the
definition and every fetched source S, the pass made a successful `Patch` of the replica built
for (T, S): it lives at (T, S.name) and its annotations carry mirror = S.uid,
sourceNamespace = S.namespace and managed-by = "<D.namespace>/<D.name>". -/
theorem replicateConfigMaps_ok_applies (env : Env) (D : ConfigMirror)
    (configMaps : List ConfigMap) (tr : List Call)
    (hok : (replicateConfigMaps env D configMaps tr).2 = Outcome.ok) :
    ∃ calls, (replicateConfigMaps env D configMaps tr).1 = tr ++ calls ∧
      ∀ T ∈ D.Spec.TargetNamespaces, ∀ S ∈ configMaps,
        ∃ r stored, buildReplica D T S = some r ∧
          Call.patch r (PatchResult.applied stored) ∈ calls ∧
          r.Namespace = T ∧ r.Name = S.Name ∧
          annGet r.Annotations (utils.GetAnnotationKey utils.MirrorKey) = some S.UID ∧
          annGet r.Annotations (utils.GetAnnotationKey utils.SourceNamespace)
            = some S.Namespace ∧
          annGet r.Annotations (utils.GetAnnotationKey utils.ManagedBy)
            = some (D.Namespace ++ "/" ++ D.Name) := by
  have h := passResult_replicateConfigMaps env D configMaps tr
  rcases hres : replicateConfigMaps env D configMaps tr with ⟨tr1, o⟩
  rw [hres] at h hok
  simp only at hok
  subst hok
  obtain ⟨calls, ha, htr⟩ := passResult_ok_trace env D _ tr tr1 h
  refine ⟨calls, htr, fun T hT S hS => ?_⟩
  obtain ⟨h12, h13, h23, _, _, _⟩ := annotationKeys_distinct
  obtain ⟨stored, hm⟩ := applied_patch_mem _ D _ calls ha T S ((mem_pairs _ _ T S).2 ⟨hT, hS⟩)
  refine ⟨replicaOf D T S, stored, buildReplica_eq D T S, hm, rfl, rfl, ?_, ?_, ?_⟩
  · simp [replicaOf, annGet, replicaAnnotations, mapGet_stamped]
  · simp [replicaOf, annGet, replicaAnnotations, mapGet_stamped, Ne.symm h12]
  · simp [replicaOf, annGet, replicaAnnotations, mapGet_stamped, Ne.symm h13, Ne.symm h23]

theorem replicateConfigMaps_ok_applies_witness :
    (replicateConfigMaps (demoEnv GetResult.found) demoMirror [demoSource] []).2 = Outcome.ok ∧
      ∃ calls,
        (replicateConfigMaps (demoEnv GetResult.found) demoMirror [demoSource] []).1
          = [] ++ calls ∧
        ∀ T ∈ demoMirror.Spec.TargetNamespaces, ∀ S ∈ [demoSource],
          ∃ r stored, buildReplica demoMirror T S = some r ∧
            Call.patch r (PatchResult.applied stored) ∈ calls ∧
            r.Namespace = T ∧ r.Name = S.Name ∧
            annGet r.Annotations (utils.GetAnnotationKey utils.MirrorKey) = some S.UID ∧
            annGet r.Annotations (utils.GetAnnotationKey utils.SourceNamespace)
              = some S.Namespace ∧
            annGet r.Annotations (utils.GetAnnotationKey utils.ManagedBy)
              = some (demoMirror.Namespace ++ "/" ++ demoMirror.Name) :=
  ⟨by decide,
    replicateConfigMaps_ok_applies (demoEnv GetResult.found) demoMirror [demoSource] []
      (by decide)⟩

/-- C5, as stated, fails: for a source without unique id, version token and last-applied
annotation, the replica built for `team-a` has the same (empty) unique id, the same (empty)
version token and the same (absent) last-applied annotation as the source. -/
theorem buildReplica_identity_may_coincide :
    (buildReplica demoMirror "team-a" bareSource).map
        (fun r => (r.UID, r.ResourceVersion, annGet r.Annotations lastAppliedKey)) =
      some (bareSource.UID, bareSource.ResourceVersion,
        annGet bareSource.Annotations lastAppliedKey) := by
  decide

/-- C5, amended. The replica built for a source S and a target namespace T always has the
empty unique id, the empty version token, no last-applied annotation and a nil managed-field
list, whatever S carries; so these differ from the values of S whenever S has a non-empty
unique id, a non-empty version token, or carries the last-applied annotation. The same
holds for the object of every `Patch` that a pass of `replicateConfigMaps` makes. -/
theorem buildReplica_identity_cleared (D : ConfigMirror) (T : String) (S : ConfigMap) :
    ∃ r, buildReplica D T S = some r ∧
      r.UID = "" ∧ r.ResourceVersion = "" ∧ r.ManagedFields = none ∧
      annGet r.Annotations lastAppliedKey = none ∧
      (S.UID ≠ "" → r.UID ≠ S.UID) ∧
      (S.ResourceVersion ≠ "" → r.ResourceVersion ≠ S.ResourceVersion) ∧
      (∀ v, annGet S.Annotations lastAppliedKey = some v →
        annGet r.Annotations lastAppliedKey ≠ annGet S.Annotations lastAppliedKey) ∧
      ∀ (env : Env) (configMaps : List ConfigMap) (obj : ConfigMap) (res : PatchResult),
        Call.patch obj res ∈ (replicateConfigMaps env D configMaps []).1 →
        obj.UID = "" ∧ obj.ResourceVersion = "" ∧ obj.ManagedFields = none ∧
          annGet obj.Annotations lastAppliedKey = none := by
  refine ⟨replicaOf D T S, buildReplica_eq D T S, rfl, rfl, rfl, replicaOf_lastApplied D T S,
    fun h => fun h2 => h h2.symm, fun h => fun h2 => h h2.symm, fun v hv => ?_,
    fun env configMaps obj res hc => ?_⟩
  · rw [replicaOf_lastApplied, hv]
    simp
  · obtain ⟨T1, S1, _, ho⟩ :=
      passResult_patch_object env D _ _ (passResult_replicateConfigMaps env D configMaps [])
        obj res hc
    rw [ho]
    exact ⟨rfl, rfl, rfl, replicaOf_lastApplied D T1 S1⟩

theorem buildReplica_identity_cleared_witness :
    Call.patch (replicaOf demoMirror "team-a" demoSource2)
          (PatchResult.applied
            { replicaOf demoMirror "team-a" demoSource2 with
              UID := "srv-team-a", ResourceVersion := "1" }) ∈
        (replicateConfigMaps (demoEnv GetResult.found) demoMirror [demoSource2] []).1 ∧
      ((replicaOf demoMirror "team-a" demoSource2).UID = "" ∧
        (replicaOf demoMirror "team-a" demoSource2).ResourceVersion = "" ∧
        (replicaOf demoMirror "team-a" demoSource2).ManagedFields = none ∧
        annGet (replicaOf demoMirror "team-a" demoSource2).Annotations lastAppliedKey
          = none) :=
  ⟨by decide, by
    obtain ⟨_, _, _, _, _, _, _, _, _, h⟩ :=
      buildReplica_identity_cleared demoMirror "team-a" demoSource2
    exact h (demoEnv GetResult.found) [demoSource2] _
      (PatchResult.applied
        { replicaOf demoMirror "team-a" demoSource2 with
          UID := "srv-team-a", ResourceVersion := "1" }) (by decide)⟩

/-- C6. On a replica whose annotation map A is not nil, `updateConfigMapAnnotations` returns
normally and leaves the replica unchanged except for its annotation map, which reads, at
every key: mirror = S.uid, sourceNamespace = S.namespace,
managed-by = "<D.namespace>/<D.name>", and the value of A at every other key (absent where A
has none). From the empty map the result consists of exactly these three entries. -/
theorem updateConfigMapAnnotations_stamps (replica S : ConfigMap) (D : ConfigMirror)
    (A : GoMap) (hA : replica.Annotations = some A) :
    ∃ A1, updateConfigMapAnnotations replica S D = some { replica with Annotations := some A1 } ∧
      (∀ k, mapGet A1 k =
        if k = utils.GetAnnotationKey utils.MirrorKey then some S.UID
        else if k = utils.GetAnnotationKey utils.SourceNamespace then some S.Namespace
        else if k = utils.GetAnnotationKey utils.ManagedBy
          then some (D.Namespace ++ "/" ++ D.Name)
        else mapGet A k) ∧
      (A = [] →
        A1 = [("bennsimon.github.io/mirror", S.UID),
              ("bennsimon.github.io/sourceNamespace", S.Namespace),
              ("bennsimon.github.io/managed-by", D.Namespace ++ "/" ++ D.Name)]) := by
  refine ⟨_, by simp only [updateConfigMapAnnotations, hA], fun k => mapGet_stamped A _ _ _ k,
    fun hnil => ?_⟩
  subst hnil
  obtain ⟨h12, h13, h23, _, _, _⟩ := annotationKeys_distinct
  have e1 : utils.GetAnnotationKey utils.MirrorKey = "bennsimon.github.io/mirror" := by decide
  have e2 : utils.GetAnnotationKey utils.SourceNamespace
      = "bennsimon.github.io/sourceNamespace" := by decide
  have e3 : utils.GetAnnotationKey utils.ManagedBy = "bennsimon.github.io/managed-by" := by
    decide
  rw [e1, e2, e3] at *
  simp [mapSet, h12, h13, h23]

theorem updateConfigMapAnnotations_stamps_witness :
    ({ demoSource with Annotations := some [("owner", "ann")] } : ConfigMap).Annotations
        = some [("owner", "ann")] ∧
      ∃ A1,
        updateConfigMapAnnotations { demoSource with Annotations := some [("owner", "ann")] }
            demoSource demoMirror =
          some { demoSource with Annotations := some A1 } ∧
        (∀ k, mapGet A1 k =
          if k = utils.GetAnnotationKey utils.MirrorKey then some demoSource.UID
          else if k = utils.GetAnnotationKey utils.SourceNamespace
            then some demoSource.Namespace
          else if k = utils.GetAnnotationKey utils.ManagedBy
            then some (demoMirror.Namespace ++ "/" ++ demoMirror.Name)
          else mapGet [("owner", "ann")] k) ∧
        ([("owner", "ann")] = [] →
          A1 = [("bennsimon.github.io/mirror", demoSource.UID),
                ("bennsimon.github.io/sourceNamespace", demoSource.Namespace),
                ("bennsimon.github.io/managed-by",
                  demoMirror.Namespace ++ "/" ++ demoMirror.Name)]) :=
  ⟨rfl, updateConfigMapAnnotations_stamps
    { demoSource with Annotations := some [("owner", "ann")] } demoSource demoMirror
    [("owner", "ann")] rfl⟩

/-- The branch of lines 199-203: when the selector conversion fails, `fetchMatchingConfigMaps`
returns a nil list and the error of the conversion, whatever `List` would answer, and a
`Reconcile` of the definition returns that error having made no `Patch` and no upsert. -/
theorem fetchMatchingConfigMaps_rejected (env : Env) (D : ConfigMirror) (e : String)
    (hrej : env.SelectorError D.Spec.Selector.MatchLabels = some e) :
    fetchMatchingConfigMaps env D = (none, some e) ∧
      ∀ (req : Request) (tr : List Call),
        env.GetConfigMirror req.Namespace req.Name = Except.ok D →
        Reconcile env req tr = (tr, Outcome.failed e) := by
  have hf : fetchMatchingConfigMaps env D = (none, some e) := by
    simp [fetchMatchingConfigMaps, LabelSelectorAsSelector, hrej]
  exact ⟨hf, fun req tr hget => by simp [Reconcile, hget, hf]⟩

/-- C7. When the client `List` for the definition's source namespace and selector is called
(the selector conversion before it succeeded) and succeeds, `fetchMatchingConfigMaps` returns
exactly the items it produced and no error; when it fails, `fetchMatchingConfigMaps` returns
a nil list and that error, whatever items the call had written, and a `Reconcile` of the
definition returns that error having made no `Patch` and no upsert. -/
theorem fetchMatchingConfigMaps_result (env : Env) (D : ConfigMirror) (items : List ConfigMap)
    (err : Option String)
    (hconv : env.SelectorError D.Spec.Selector.MatchLabels = none)
    (hlist : env.ListConfigMaps D.Spec.SourceNamespace D.Spec.Selector.MatchLabels
      = (items, err)) :
    (err = none → fetchMatchingConfigMaps env D = (some items, none)) ∧
      ∀ e, err = some e →
        fetchMatchingConfigMaps env D = (none, some e) ∧
        ∀ (req : Request) (tr : List Call),
          env.GetConfigMirror req.Namespace req.Name = Except.ok D →
          Reconcile env req tr = (tr, Outcome.failed e) := by
  constructor
  · intro h
    subst h
    simp [fetchMatchingConfigMaps, LabelSelectorAsSelector, hconv, hlist]
  · intro e h
    subst h
    have hf : fetchMatchingConfigMaps env D = (none, some e) := by
      simp [fetchMatchingConfigMaps, LabelSelectorAsSelector, hconv, hlist]
    refine ⟨hf, fun req tr hget => ?_⟩
    simp [Reconcile, hget, hf]

theorem fetchMatchingConfigMaps_result_witness :
    listDownEnv.SelectorError demoMirror.Spec.Selector.MatchLabels = none ∧
      listDownEnv.ListConfigMaps demoMirror.Spec.SourceNamespace
        demoMirror.Spec.Selector.MatchLabels = ([demoSource], some "timeout") ∧
      fetchMatchingConfigMaps listDownEnv demoMirror = (none, some "timeout") ∧
      Reconcile listDownEnv { Namespace := "ops", Name := "cm" } []
        = ([], Outcome.failed "timeout") :=
  ⟨rfl, rfl,
    ((fetchMatchingConfigMaps_result listDownEnv demoMirror [demoSource] (some "timeout")
      rfl rfl).2 "timeout" rfl).1,
    ((fetchMatchingConfigMaps_result listDownEnv demoMirror [demoSource] (some "timeout")
      rfl rfl).2 "timeout" rfl).2 { Namespace := "ops", Name := "cm" } [] rfl⟩

/-- C9, as stated, fails: with persistence enabled and two sources to mirror into `team-a`,
when the upsert of the first replica fails the pass ends there with that error; no call is
made for the second source `cfg2`, whose replica is not applied. -/
theorem replicateConfigMaps_stops_at_failed_upsert :
    storeDownEnv.SaveReplicationAction = true ∧
      ("team-a", demoSource2) ∈
        pairs demoMirror.Spec.TargetNamespaces [demoSource, demoSource2] ∧
      (replicateConfigMaps storeDownEnv demoMirror [demoSource, demoSource2] []).2
        = Outcome.failed "store down" ∧
      (replicateConfigMaps storeDownEnv demoMirror [demoSource, demoSource2] []).1.map
          (fun c => (c.object.Namespace, c.object.Name))
        = [("team-a", "cfg"), ("team-a", "cfg")] ∧
      (replicateConfigMaps storeDownEnv demoMirror [demoSource, demoSource2] []).1.all
        (fun c => c.object.Name != "cfg2") = true := by
  decide

/-- C9, amended. When an upsert into the audit store fails during a pass, persistence is
enabled and the failing upsert is the last call of the pass: the pairs before the failing
one (target-major order) were each applied and recorded and stay so, the replica of the
failing pair was applied just before (it is not retracted), no pair after the failing one is
applied or recorded, and the pass returns the error of the upsert. -/
theorem replicateConfigMaps_failed_upsert (env : Env) (D : ConfigMirror)
    (configMaps : List ConfigMap) (o : ConfigMap) (e : String)
    (hfail : Call.addOrUpdate o (some e) ∈ (replicateConfigMaps env D configMaps []).1) :
    env.SaveReplicationAction = true ∧
      ∃ pre T S post calls r,
        pairs D.Spec.TargetNamespaces configMaps = pre ++ (T, S) :: post ∧
        Applied true D pre calls ∧
        buildReplica D T S = some r ∧
        replicateConfigMaps env D configMaps [] =
          (calls ++ [Call.patch r (PatchResult.applied o), Call.addOrUpdate o (some e)],
           Outcome.failed e) := by
  have h := passResult_replicateConfigMaps env D configMaps []
  rcases h with ⟨calls, ha, h⟩ | ⟨pre, T, S, post, calls, e1, hq, ha, h⟩ |
    ⟨pre, T, S, post, calls, stored, e1, hs, hq, ha, h⟩
  · rw [h] at hfail
    simp only [List.nil_append] at hfail
    exact absurd hfail (applied_no_failed_upsert _ D _ calls ha o e)
  · rw [h] at hfail
    simp only [List.nil_append, List.mem_append, List.mem_singleton] at hfail
    rcases hfail with hfail | hfail
    · exact absurd hfail (applied_no_failed_upsert _ D _ calls ha o e)
    · cases hfail
  · rw [h] at hfail
    simp only [List.nil_append, List.mem_append, List.mem_cons, List.mem_singleton,
      List.not_mem_nil, or_false] at hfail
    rcases hfail with hfail | hfail | hfail
    · exact absurd hfail (applied_no_failed_upsert _ D _ calls ha o e)
    · cases hfail
    · injection hfail with hr he
      injection he with he
      subst hr he
      rw [hs] at ha
      refine ⟨hs, pre, T, S, post, calls, replicaOf D T S, hq, ha, buildReplica_eq D T S, ?_⟩
      rw [h]
      simp

theorem replicateConfigMaps_failed_upsert_witness :
    Call.addOrUpdate
          { replicaOf demoMirror "team-a" demoSource with
            UID := "srv-team-a", ResourceVersion := "1" } (some "store down") ∈
        (replicateConfigMaps storeDownEnv demoMirror [demoSource, demoSource2] []).1 ∧
      (storeDownEnv.SaveReplicationAction = true ∧
        ∃ pre T S post calls r,
          pairs demoMirror.Spec.TargetNamespaces [demoSource, demoSource2]
            = pre ++ (T, S) :: post ∧
          Applied true demoMirror pre calls ∧
          buildReplica demoMirror T S = some r ∧
          replicateConfigMaps storeDownEnv demoMirror [demoSource, demoSource2] [] =
            (calls ++
              [Call.patch r (PatchResult.applied
                  { replicaOf demoMirror "team-a" demoSource with
                    UID := "srv-team-a", ResourceVersion := "1" }),
               Call.addOrUpdate
                  { replicaOf demoMirror "team-a" demoSource with
                    UID := "srv-team-a", ResourceVersion := "1" } (some "store down")],
             Outcome.failed "store down")) :=
  ⟨by decide,
    replicateConfigMaps_failed_upsert storeDownEnv demoMirror [demoSource, demoSource2]
      { replicaOf demoMirror "team-a" demoSource with
        UID := "srv-team-a", ResourceVersion := "1" } "store down" (by decide)⟩

/-- C10. When the definition is found and the fetch succeeds with an empty list (the selector
converts and the client `List` returns no item and no error), `Reconcile` returns without
error and makes no call: no replica is applied and no audit record is written, whatever the
target namespaces are. -/
theorem Reconcile_no_match (env : Env) (req : Request) (D : ConfigMirror) (tr : List Call)
    (hget : env.GetConfigMirror req.Namespace req.Name = Except.ok D)
    (hconv : env.SelectorError D.Spec.Selector.MatchLabels = none)
    (hlist : env.ListConfigMaps D.Spec.SourceNamespace D.Spec.Selector.MatchLabels
      = ([], none)) :
    fetchMatchingConfigMaps env D = (some [], none) ∧
      Reconcile env req tr = (tr, Outcome.ok) := by
  have hf : fetchMatchingConfigMaps env D = (some [], none) := by
    simp [fetchMatchingConfigMaps, LabelSelectorAsSelector, hconv, hlist]
  exact ⟨hf, by simp [Reconcile, hget, hf]⟩

theorem Reconcile_no_match_witness :
    noMatchEnv.GetConfigMirror "ops" "cm" = Except.ok demoMirror ∧
      noMatchEnv.SelectorError demoMirror.Spec.Selector.MatchLabels = none ∧
      noMatchEnv.ListConfigMaps demoMirror.Spec.SourceNamespace
        demoMirror.Spec.Selector.MatchLabels = ([], none) ∧
      fetchMatchingConfigMaps noMatchEnv demoMirror = (some [], none) ∧
      Reconcile noMatchEnv { Namespace := "ops", Name := "cm" } [] = ([], Outcome.ok) :=
  ⟨rfl, rfl, rfl,
    Reconcile_no_match noMatchEnv { Namespace := "ops", Name := "cm" } demoMirror [] rfl rfl
      rfl⟩

/-! ## Replication: the first failing apply -/

theorem applied_no_failed_patch (save : Bool) (D : ConfigMirror)
    (ps : List (String × ConfigMap)) (calls : List Call) (ha : Applied save D ps calls)
    (r : ConfigMap) (e : String) : Call.patch r (PatchResult.failed e) ∉ calls := by
  induction ps generalizing calls with
  | nil =>
    simp only [Applied] at ha
    subst ha
    simp
  | cons p rest ih =>
    obtain ⟨stored, tail, ht, hc⟩ := ha
    rw [hc, List.mem_append, not_or]
    refine ⟨?_, ih tail ht⟩
    cases save <;> simp

theorem appliedObjects_append (c1 c2 : List Call) :
    appliedObjects (c1 ++ c2) = appliedObjects c1 ++ appliedObjects c2 := by
  simp [appliedObjects, List.filterMap_append]

theorem upserts_append (c1 c2 : List Call) : upserts (c1 ++ c2) = upserts c1 ++ upserts c2 := by
  simp [upserts, List.filterMap_append]

theorem applied_appliedObjects (save : Bool) (D : ConfigMirror)
    (ps : List (String × ConfigMap)) (calls : List Call) (ha : Applied save D ps calls) :
    appliedObjects calls = ps.map (fun p => replicaOf D p.1 p.2) := by
  induction ps generalizing calls with
  | nil =>
    simp only [Applied] at ha
    subst ha
    rfl
  | cons p rest ih =>
    obtain ⟨stored, tail, ht, hc⟩ := ha
    rw [hc, appliedObjects_append, ih tail ht]
    cases save <;> simp [appliedObjects]

theorem applied_upserts_length (save : Bool) (D : ConfigMirror)
    (ps : List (String × ConfigMap)) (calls : List Call) (ha : Applied save D ps calls) :
    (upserts calls).length = if save then ps.length else 0 := by
  induction ps generalizing calls with
  | nil =>
    simp only [Applied] at ha
    subst ha
    cases save <;> rfl
  | cons p rest ih =>
    obtain ⟨stored, tail, ht, hc⟩ := ha
    rw [hc, upserts_append, List.length_append, ih tail ht]
    cases save <;> simp [upserts, Nat.add_comm]

theorem filterMap_buildReplica (D : ConfigMirror) (ps : List (String × ConfigMap)) :
    ps.filterMap (fun p => buildReplica D p.1 p.2) = ps.map (fun p => replicaOf D p.1 p.2) := by
  induction ps with
  | nil => rfl
  | cons p rest ih =>
    rw [List.filterMap_cons, buildReplica_eq, List.map_cons, ih]

/-- C11. The pairs are processed one after the other in target-major order; when a `Patch`
fails during a pass, the pass ends there: the pairs split into those before the failing pair
(T, S), the failing pair and those after it; the calls made are the successful calls of the
pairs before, in order, followed by the failing `Patch` of the replica built for (T, S); the
returned error reads "failed to replicate <S.namespace>/<S.name> to <T>/<S.name> due to:
<error>"; the replicas applied are exactly those of the pairs before (T, S), none undone, and
the upserts made are those of the pairs before (none when persistence is off), so no pair
after (T, S) is applied or persisted. -/
theorem replicateConfigMaps_failed_apply (env : Env) (D : ConfigMirror)
    (configMaps : List ConfigMap) (r : ConfigMap) (e : String)
    (hfail : Call.patch r (PatchResult.failed e) ∈ (replicateConfigMaps env D configMaps []).1) :
    ∃ pre T S post calls,
      pairs D.Spec.TargetNamespaces configMaps = pre ++ (T, S) :: post ∧
      Applied env.SaveReplicationAction D pre calls ∧
      buildReplica D T S = some r ∧
      replicateConfigMaps env D configMaps [] =
        (calls ++ [Call.patch r (PatchResult.failed e)],
         Outcome.failed
          ("failed to replicate " ++ S.Namespace ++ "/" ++ S.Name ++ " to " ++
            T ++ "/" ++ S.Name ++ " due to: " ++ e)) ∧
      appliedObjects (replicateConfigMaps env D configMaps []).1 =
        pre.filterMap (fun p => buildReplica D p.1 p.2) ∧
      (upserts (replicateConfigMaps env D configMaps []).1).length =
        if env.SaveReplicationAction then pre.length else 0 := by
  have h := passResult_replicateConfigMaps env D configMaps []
  rcases h with ⟨calls, ha, h⟩ | ⟨pre, T, S, post, calls, e1, hq, ha, h⟩ |
    ⟨pre, T, S, post, calls, stored, e1, hs, hq, ha, h⟩
  · rw [h] at hfail
    simp only [List.nil_append] at hfail
    exact absurd hfail (applied_no_failed_patch _ D _ calls ha r e)
  · rw [h] at hfail
    simp only [List.nil_append, List.mem_append, List.mem_singleton] at hfail
    rcases hfail with hfail | hfail
    · exact absurd hfail (applied_no_failed_patch _ D _ calls ha r e)
    · injection hfail with hr he
      injection he with he
      subst hr he
      refine ⟨pre, T, S, post, calls, hq, ha, buildReplica_eq D T S, ?_, ?_, ?_⟩
      · rw [h]
        simp [replicateError, replicaOf]
      · rw [h, filterMap_buildReplica]
        simp only [List.nil_append, appliedObjects_append,
          applied_appliedObjects _ D pre calls ha]
        simp [appliedObjects]
      · rw [h]
        simp only [List.nil_append, upserts_append, List.length_append,
          applied_upserts_length _ D pre calls ha]
        simp [upserts]
  · rw [h] at hfail
    simp only [List.nil_append, List.mem_append, List.mem_cons, List.mem_singleton,
      List.not_mem_nil, or_false] at hfail
    rcases hfail with hfail | hfail | hfail
    · exact absurd hfail (applied_no_failed_patch _ D _ calls ha r e)
    · injection hfail with _ he
      cases he
    · cases hfail

theorem replicateConfigMaps_failed_apply_witness :
    Call.patch (replicaOf twoTargetMirror "team-b" demoSource) (PatchResult.failed "forbidden") ∈
        (replicateConfigMaps teamBDownEnv twoTargetMirror [demoSource, demoSource2] []).1 ∧
      (∃ pre T S post calls,
        pairs twoTargetMirror.Spec.TargetNamespaces [demoSource, demoSource2]
          = pre ++ (T, S) :: post ∧
        Applied teamBDownEnv.SaveReplicationAction twoTargetMirror pre calls ∧
        buildReplica twoTargetMirror T S = some (replicaOf twoTargetMirror "team-b" demoSource) ∧
        replicateConfigMaps teamBDownEnv twoTargetMirror [demoSource, demoSource2] [] =
          (calls ++ [Call.patch (replicaOf twoTargetMirror "team-b" demoSource)
              (PatchResult.failed "forbidden")],
           Outcome.failed
            ("failed to replicate " ++ S.Namespace ++ "/" ++ S.Name ++ " to " ++
              T ++ "/" ++ S.Name ++ " due to: " ++ "forbidden")) ∧
        appliedObjects
            (replicateConfigMaps teamBDownEnv twoTargetMirror [demoSource, demoSource2] []).1 =
          pre.filterMap (fun p => buildReplica twoTargetMirror p.1 p.2) ∧
        (upserts
            (replicateConfigMaps teamBDownEnv twoTargetMirror
              [demoSource, demoSource2] []).1).length =
          if teamBDownEnv.SaveReplicationAction then pre.length else 0) ∧
      (replicateConfigMaps teamBDownEnv twoTargetMirror [demoSource, demoSource2] []).2 =
        Outcome.failed "failed to replicate default/cfg to team-b/cfg due to: forbidden" ∧
      appliedObjects
          (replicateConfigMaps teamBDownEnv twoTargetMirror [demoSource, demoSource2] []).1 =
        [replicaOf twoTargetMirror "team-a" demoSource,
         replicaOf twoTargetMirror "team-a" demoSource2] :=
  ⟨by decide,
    replicateConfigMaps_failed_apply teamBDownEnv twoTargetMirror [demoSource, demoSource2]
      (replicaOf twoTargetMirror "team-b" demoSource) "forbidden" (by decide),
    by decide, by decide⟩

end Controller
